import Mathlib

/-!
# Verification of the FTCinsight frontend data-access layer

Shallow embedding of the read-through cache in
`src/frontend/src/pagesContent/event/[event_id]/matches.tsx`
(`setWithExpiry`, `getWithExpiry`, `isFirebaseConfigured`, `cachedQuery`,
the per-resource query functions and their cache keys) and of the composite
Firestore query `fetchTeamMatches` in `src/frontend/src/firebase/queries.ts`.

JavaScript values that flow through the cache are modelled by the inductive
type `CVal`; the asynchronous idb-keyval store is modelled by an association
list together with an explicit fault specification saying which `get` / `set`
/ `del` operations throw.  Promise rejection is modelled by `Except Unit`.
-/

namespace FTCinsight

/-- A JavaScript value as it appears in this data layer: `null`/`undefined`,
booleans, numbers (the code only ever compares integral millisecond
timestamps, so numbers are modelled as `Int`), strings, arrays and objects. -/
inductive CVal where
  | vnull
  | vbool (b : Bool)
  | vnum (n : Int)
  | vstr (s : String)
  | varr (elems : List CVal)
  | vobj (fields : List (String × CVal))

/-- JavaScript truthiness of a value (`if (x)`, `!!x`).  `null`/`undefined`,
`false`, `0` and `""` are falsy; arrays and objects are always truthy. -/
def truthy : CVal → Bool
  | .vnull => false
  | .vbool b => b
  | .vnum n => n != 0
  | .vstr s => s != ""
  | .varr _ => true
  | .vobj _ => true

/-- Truthiness of an optional value; `none` models `null`/`undefined`. -/
def truthyOpt : Option CVal → Bool
  | none => false
  | some v => truthy v

/-- `Array.isArray(result)`. -/
def CVal.isArr : CVal → Bool
  | .varr _ => true
  | _ => false

/-- `result.length` for an array (only used under `Array.isArray`). -/
def CVal.arrLen : CVal → Nat
  | .varr elems => elems.length
  | _ => 0

/-- The comparison `now.getTime() > expiry` of `getWithExpiry`.  The only
expiry records ever written by `setWithExpiry` are numbers; a JavaScript
`>` comparison against a value that does not coerce to a number is `false`
(NaN comparisons), which the catch-all arm reflects. -/
def jsGT (now : Int) : CVal → Bool
  | .vnum n => decide (n < now)
  | _ => false

/-- The idb-keyval store: an association list from keys to values, most
recent write first. -/
def Store := List (String × CVal)

/-- Which persistent-store operations throw.  Each of `get`, `set`, `del`
is independently fallible. -/
structure Faults where
  getFails : String → Bool
  setFails : String → Bool
  delFails : String → Bool

/-- A fault specification under which every store operation succeeds. -/
def noFaults : Faults :=
  { getFails := fun _ => false, setFails := fun _ => false, delFails := fun _ => false }

/-- Pure lookup in the store. -/
def pkvLookup (st : Store) (k : String) : Option CVal :=
  (List.find? (fun p => p.1 == k) st).map (fun p => p.2)

/-- Pure overwrite of a key (later writes shadow earlier ones). -/
def storeSet (st : Store) (k : String) (v : CVal) : Store :=
  (k, v) :: st

/-- Pure deletion of a key. -/
def storeDel (st : Store) (k : String) : Store :=
  List.filter (fun p => p.1 != k) st

/-- `get(key)` from idb-keyval: may reject, otherwise returns the stored
value or `undefined` (`none`). -/
def pkvGet (f : Faults) (st : Store) (k : String) : Except Unit (Option CVal) :=
  if f.getFails k then .error () else .ok (pkvLookup st k)

/-- `set(key, value)` from idb-keyval: may reject, otherwise updates. -/
def pkvSet (f : Faults) (st : Store) (k : String) (v : CVal) : Except Unit Store :=
  if f.setFails k then .error () else .ok (storeSet st k v)

/-- `del(key)` from idb-keyval: may reject, otherwise deletes. -/
def pkvDel (f : Faults) (st : Store) (k : String) : Except Unit Store :=
  if f.delFails k then .error () else .ok (storeDel st k)

/-- `setWithExpiry(key, value, ttl)`: writes `key_expiry ↦ now + 1000*ttl`
then `key ↦ value`, with the whole body inside `try { … } catch` — a store
failure is swallowed (logged) and the partial store state is kept. -/
def setWithExpiry (f : Faults) (st : Store) (now : Int) (key : String)
    (value : CVal) (ttl : Int) : Store :=
  match pkvSet f st (key ++ "_expiry") (.vnum (now + 1000 * ttl)) with
  | .error _ => st
  | .ok st1 =>
    match pkvSet f st1 key value with
    | .error _ => st1
    | .ok st2 => st2

/-- `getWithExpiry(key)`: reads the expiry record; `if (!expiry) return null`;
if `now > expiry`, deletes both records and returns `null` (lazy eviction);
otherwise returns `get(key)`.  The body is *not* wrapped in `try`/`catch`,
so a rejection of any of the `get`/`del` calls propagates (`.error`).
Returns the outcome together with the store as left behind. -/
def getWithExpiry (f : Faults) (st : Store) (now : Int) (key : String) :
    Except Unit (Option CVal) × Store :=
  match pkvGet f st (key ++ "_expiry") with
  | .error e => (.error e, st)
  | .ok none => (.ok none, st)
  | .ok (some ev) =>
    if !truthy ev then (.ok none, st)
    else if jsGT now ev then
      match pkvDel f st (key ++ "_expiry") with
      | .error e => (.error e, st)
      | .ok st1 =>
        match pkvDel f st1 key with
        | .error e => (.error e, st1)
        | .ok st2 => (.ok none, st2)
    else
      match pkvGet f st key with
      | .error e => (.error e, st)
      | .ok v => (.ok v, st)

/-- The result of `fetch`: `res.ok` and the decoded JSON body. -/
structure FetchResponse where
  ok : Bool
  body : CVal

/-- Outcome of one `cachedQuery` run: the value returned to the caller
(`.error` = the returned promise rejected), the final store state, how many
times the Firestore query function was invoked and the list of URLs the
fallback `fetch` was invoked on. -/
structure QResult where
  result : Except Unit (Option CVal)
  store : Store
  primaryCalls : Nat
  fallbackPaths : List String

/-- The tail of `cachedQuery` from the `// Fall back to backend` comment on:
`fetch(BACKEND_URL + backendPath)` inside `try`/`catch`; on `res.ok` the body
is cached via `setWithExpiry` and returned, otherwise (non-ok status or a
thrown error) the function returns `null`. -/
def backendStep (f : Faults) (st : Store) (now : Int) (cacheKey : String)
    (backendUrl : String) (backend : String → Except Unit FetchResponse)
    (backendPath : String) (expiry : Int) (primaryCalls : Nat) : QResult :=
  match backend (backendUrl ++ backendPath) with
  | .error _ => ⟨.ok none, st, primaryCalls, [backendUrl ++ backendPath]⟩
  | .ok res =>
    if res.ok then
      ⟨.ok (some res.body), setWithExpiry f st now cacheKey res.body expiry,
        primaryCalls, [backendUrl ++ backendPath]⟩
    else
      ⟨.ok none, st, primaryCalls, [backendUrl ++ backendPath]⟩

/-- `cachedQuery(cacheKey, firebaseQuery, backendPath, expiry)`.
`configured` is the value of `isFirebaseConfigured()` (both environment
variables present); `firebaseQuery` is the outcome of the primary query
(`.error` = it threw); `backend` maps a URL to the outcome of `fetch`.
The initial cache read is *outside* any `try`, so its rejection propagates. -/
def cachedQuery (f : Faults) (st : Store) (now : Int) (cacheKey : String)
    (configured : Bool) (firebaseQuery : Except Unit CVal)
    (backendUrl : String) (backend : String → Except Unit FetchResponse)
    (backendPath : String) (expiry : Int) : QResult :=
  match getWithExpiry f st now cacheKey with
  | (.error e, st1) => ⟨.error e, st1, 0, []⟩
  | (.ok cached, st1) =>
    if truthyOpt cached then ⟨.ok cached, st1, 0, []⟩
    else if configured then
      match firebaseQuery with
      | .ok result =>
        if truthy result && (if result.isArr then decide (0 < result.arrLen) else true) then
          ⟨.ok (some result), setWithExpiry f st1 now cacheKey result expiry, 1, []⟩
        else backendStep f st1 now cacheKey backendUrl backend backendPath expiry 1
      | .error _ => backendStep f st1 now cacheKey backendUrl backend backendPath expiry 1
    else backendStep f st1 now cacheKey backendUrl backend backendPath expiry 0

/-! ## Cache keys of the resource query functions -/

/-- `export const version = 'v3'`. -/
def version : String := "v3"

/-- `BACKEND_URL`, selected by the `PROD` environment flag. -/
def BACKEND_URL (prod : Bool) : String :=
  if prod then "https://api.ftcinsight.org/v3/site" else "http://127.0.0.1:8000/v3/site"

/-- Key of `getAllTeams`, parametrised by the schema version. -/
def teamsAllKey (v : String) : String := "teams_all_" ++ v

/-- Key of `getTeam`. -/
def teamKey (v : String) (teamNum : Int) : String :=
  "team_" ++ toString teamNum ++ "_" ++ v

/-- Key of `getYearTeamYears`: the JavaScript conditional `limitCount ? … : …`
tests truthiness, so a missing *or zero* limit selects the `_all_` key. -/
def teamYearsKey (v : String) (year : Int) (limitCount : Option Int) : String :=
  match limitCount with
  | some n =>
    if n != 0 then "team_years_" ++ toString year ++ "_" ++ toString n ++ "_" ++ v
    else "team_years_" ++ toString year ++ "_all_" ++ v
  | none => "team_years_" ++ toString year ++ "_all_" ++ v

/-- Key of `getTeamYear`. -/
def teamYearKey (v : String) (teamNum year : Int) : String :=
  "team_year_" ++ toString teamNum ++ "_" ++ toString year ++ "_" ++ v

/-- Key of `getTeamAllYears`. -/
def teamAllYearsKey (v : String) (teamNum : Int) : String :=
  "team_all_years_" ++ toString teamNum ++ "_" ++ v

/-- Key of `getYearEvents`. -/
def eventsKey (v : String) (year : Int) : String :=
  "events_" ++ toString year ++ "_" ++ v

/-- Key of `getEvent`. -/
def eventKeyOf (v : String) (eventKey : String) : String :=
  "event_" ++ eventKey ++ "_" ++ v

/-- Key of `getEventMatches`. -/
def eventMatchesKey (v : String) (eventKey : String) : String :=
  "event_matches_" ++ eventKey ++ "_" ++ v

/-- Key of `getTeamYearMatches`. -/
def teamMatchesKey (v : String) (teamNum year : Int) : String :=
  "team_matches_" ++ toString teamNum ++ "_" ++ toString year ++ "_" ++ v

/-- Key of `getEventRankings`. -/
def eventRankingsKey (v : String) (eventKey : String) : String :=
  "event_rankings_" ++ eventKey ++ "_" ++ v

/-- The cache keys producible by the resource query functions under schema
version `v` (one constructor per key shape of §4.3 / the API functions). -/
inductive IsResourceKey (v : String) : String → Prop where
  | teamsAll : IsResourceKey v (teamsAllKey v)
  | team (teamNum : Int) : IsResourceKey v (teamKey v teamNum)
  | teamYears (year : Int) (limitCount : Option Int) :
      IsResourceKey v (teamYearsKey v year limitCount)
  | teamYear (teamNum year : Int) : IsResourceKey v (teamYearKey v teamNum year)
  | teamAllYears (teamNum : Int) : IsResourceKey v (teamAllYearsKey v teamNum)
  | events (year : Int) : IsResourceKey v (eventsKey v year)
  | event (eventKey : String) : IsResourceKey v (eventKeyOf v eventKey)
  | eventMatches (eventKey : String) : IsResourceKey v (eventMatchesKey v eventKey)
  | teamMatches (teamNum year : Int) : IsResourceKey v (teamMatchesKey v teamNum year)
  | eventRankings (eventKey : String) : IsResourceKey v (eventRankingsKey v eventKey)

/-- Cache key actually used by `getYearTeamYears` (fixed `version`). -/
def getYearTeamYearsKey (year : Int) (limitCount : Option Int) : String :=
  teamYearsKey version year limitCount

/-- TTL passed by `getYearTeamYears`:
`year === new Date().getFullYear() ? 60 : 3600`. -/
def getYearTeamYearsTTL (currentYear year : Int) : Int :=
  if year == currentYear then 60 else 3600

/-! ## The composite Firestore query `fetchTeamMatches` -/

/-- A document of the `matches` collection, restricted to the fields the
composite query reads. -/
structure MatchRec where
  event : String
  red_1 : Int
  red_2 : Int
  blue_1 : Int
  blue_2 : Int
  time : Int
deriving DecidableEq

/-- A document of the `team_events` collection, restricted to the fields the
composite query reads. -/
structure TeamEventRec where
  team : Int
  year : Int
  event : String
deriving DecidableEq

/-- The ascending-by-time stable sort used by both the Firestore
`orderBy("time", "asc")` results and the final JavaScript
`sort((a, b) => a.time - b.time)` (`Array.prototype.sort` is stable). -/
def sortByTime (l : List MatchRec) : List MatchRec :=
  List.insertionSort (fun a b => a.time ≤ b.time) l

/-- `fetchCollection(matches, [where event ==, orderBy time asc])` for one
event: on a Firestore error, `fetchCollection` catches and returns `[]`;
otherwise the matching documents sorted ascending by `time`.  `failsM` says
which per-event queries fail. -/
def fetchEventMatchesQ (mdb : List MatchRec) (failsM : String → Bool)
    (eventKey : String) : List MatchRec :=
  if failsM eventKey then []
  else sortByTime (List.filter (fun m => m.event == eventKey) mdb)

/-- `fetchCollection(team_events, [where team ==, where year ==])`; on error
`[]`. -/
def fetchTeamEventsQ (tdb : List TeamEventRec) (failsTE : Bool)
    (teamNum year : Int) : List TeamEventRec :=
  if failsTE then []
  else List.filter (fun te => te.team == teamNum && te.year == year) tdb

/-- The participation predicate of `fetchTeamMatches`:
`m.red_1 === teamNum || m.red_2 === teamNum || m.blue_1 === teamNum ||
m.blue_2 === teamNum`. -/
def teamInMatch (teamNum : Int) (m : MatchRec) : Bool :=
  m.red_1 == teamNum || m.red_2 == teamNum || m.blue_1 == teamNum || m.blue_2 == teamNum

/-- `fetchTeamMatches(teamNum, year)`: fetch the team's `team_events`, for
each fetch that event's matches, keep those the team played in, concatenate,
then `sort((a, b) => a.time - b.time)` (a stable ascending sort). -/
def fetchTeamMatches (tdb : List TeamEventRec) (mdb : List MatchRec)
    (failsTE : Bool) (failsM : String → Bool) (teamNum year : Int) : List MatchRec :=
  let teamEvents := fetchTeamEventsQ tdb failsTE teamNum year
  let allMatches := teamEvents.flatMap (fun te =>
    List.filter (teamInMatch teamNum) (fetchEventMatchesQ mdb failsM te.event))
  sortByTime allMatches

/-- `'_'` does not occur in the string `s`.  The schema-version strings used
in practice (`"v3"`) satisfy this; the version is always the final
`_`-separated segment of a cache key. -/
def underscoreFree (s : String) : Prop := '_' ∉ s.data

instance (s : String) : Decidable (underscoreFree s) := by
  unfold underscoreFree
  infer_instance

/-- The caller-observable outcome of one `cachedQuery` run: the returned
value, the number of primary invocations and the fallback URLs fetched
(everything except the final store state). -/
def resultCallsOf (r : QResult) : Except Unit (Option CVal) × Nat × List String :=
  (r.result, r.primaryCalls, r.fallbackPaths)

/-! ## Basic lemmas about the store model -/

theorem pkvLookup_storeSet_self (st : Store) (k : String) (v : CVal) :
    pkvLookup (storeSet st k v) k = some v := by
  simp [pkvLookup, storeSet, List.find?]

theorem pkvLookup_storeSet_ne (st : Store) (k : String) (v : CVal) (k' : String)
    (h : k ≠ k') : pkvLookup (storeSet st k v) k' = pkvLookup st k' := by
  have hb : (k == k') = false := by simpa using h
  simp [pkvLookup, storeSet, List.find?, hb]

theorem pkvLookup_storeDel_self (st : Store) (k : String) :
    pkvLookup (storeDel st k) k = none := by
  simp only [pkvLookup, storeDel]
  have hnone : List.find? (fun p => p.1 == k) (List.filter (fun p => p.1 != k) st)
      = none := by
    rw [List.find?_eq_none]
    intro x hx
    have hx2 := (List.mem_filter.mp hx).2
    simp only [bne_iff_ne, ne_eq] at hx2
    simpa using hx2
  rw [hnone]
  rfl

theorem find?_key_of_del_other (k k' : String) (h : k ≠ k')
    (st : List (String × CVal)) :
    List.find? (fun p => p.1 == k') (List.filter (fun p => p.1 != k) st)
      = List.find? (fun p => p.1 == k') st := by
  induction st with
  | nil => rfl
  | cons p st ih =>
    by_cases hpk : p.1 = k
    · rw [List.filter_cons_of_neg (by simp [hpk])]
      rw [List.find?_cons_of_neg _ (by simp [hpk]; exact h)]
      exact ih
    · rw [List.filter_cons_of_pos (by simpa using hpk)]
      by_cases hq : p.1 = k'
      · rw [List.find?_cons_of_pos _ (by simpa using hq),
          List.find?_cons_of_pos _ (by simpa using hq)]
      · rw [List.find?_cons_of_neg _ (by simpa using hq),
          List.find?_cons_of_neg _ (by simpa using hq)]
        exact ih

theorem pkvLookup_storeDel_ne (st : Store) (k k' : String) (h : k ≠ k') :
    pkvLookup (storeDel st k) k' = pkvLookup st k' := by
  simp only [pkvLookup, storeDel]
  rw [find?_key_of_del_other k k' h st]

/-- A key never equals its own expiry record's key. -/
theorem key_ne_expiryKey (k : String) : k ≠ k ++ "_expiry" := by
  intro h
  have hl := congrArg String.length h
  rw [String.length_append] at hl
  have h7 : ("_expiry" : String).length = 7 := rfl
  rw [h7] at hl
  omega

/-- `setWithExpiry` on a non-faulty store is the two writes in order. -/
theorem setWithExpiry_noFaults_eq (st : Store) (now : Int) (k : String)
    (v : CVal) (ttl : Int) :
    setWithExpiry noFaults st now k v ttl =
      storeSet (storeSet st (k ++ "_expiry") (.vnum (now + 1000 * ttl))) k v := by
  simp [setWithExpiry, pkvSet, noFaults]

/-- `getWithExpiry` on a non-faulty store, expressed over pure lookups. -/
theorem getWithExpiry_noFaults_eq (st : Store) (now : Int) (k : String) :
    getWithExpiry noFaults st now k =
      match pkvLookup st (k ++ "_expiry") with
      | none => (.ok none, st)
      | some ev =>
        if !truthy ev then (.ok none, st)
        else if jsGT now ev then
          (.ok none, storeDel (storeDel st (k ++ "_expiry")) k)
        else (.ok (pkvLookup st k), st) := by
  cases h : pkvLookup st (k ++ "_expiry") with
  | none => simp [getWithExpiry, pkvGet, pkvDel, noFaults, h]
  | some ev =>
    by_cases ht : truthy ev
    · by_cases hgt : jsGT now ev
      · simp [getWithExpiry, pkvGet, pkvDel, noFaults, h, ht, hgt]
      · simp [getWithExpiry, pkvGet, pkvDel, noFaults, h, ht, hgt]
    · simp [getWithExpiry, pkvGet, pkvDel, noFaults, h, ht]

theorem pkvLookup_setWithExpiry_value (st : Store) (now : Int) (k : String)
    (v : CVal) (ttl : Int) :
    pkvLookup (setWithExpiry noFaults st now k v ttl) k = some v := by
  rw [setWithExpiry_noFaults_eq]
  exact pkvLookup_storeSet_self _ _ _

theorem pkvLookup_setWithExpiry_expiry (st : Store) (now : Int) (k : String)
    (v : CVal) (ttl : Int) :
    pkvLookup (setWithExpiry noFaults st now k v ttl) (k ++ "_expiry")
      = some (.vnum (now + 1000 * ttl)) := by
  rw [setWithExpiry_noFaults_eq,
    pkvLookup_storeSet_ne _ _ _ _ (key_ne_expiryKey k)]
  exact pkvLookup_storeSet_self _ _ _

/-- Lookup of an unrelated key is unchanged by `setWithExpiry`. -/
theorem pkvLookup_setWithExpiry_ne (st : Store) (now : Int) (k : String)
    (v : CVal) (ttl : Int) (k' : String) (h1 : k ≠ k') (h2 : k ++ "_expiry" ≠ k') :
    pkvLookup (setWithExpiry noFaults st now k v ttl) k' = pkvLookup st k' := by
  rw [setWithExpiry_noFaults_eq, pkvLookup_storeSet_ne _ _ _ _ h1,
    pkvLookup_storeSet_ne _ _ _ _ h2]

/-! ## C1: fresh write then read is a hit that touches no source -/

/-- C1: for a store with no faults, a TTL-cache read of `k` immediately after
`setWithExpiry(k, v, ttl)` with `ttl > 0` (at a non-negative clock) returns
`v`; and on such a cache hit (the cached value being truthy) `cachedQuery`
returns the cached value with zero primary-query invocations and zero
fallback fetches, leaving the store unchanged. -/
theorem c1_fresh_write_read_hit (st : Store) (now ttl : Int) (k : String)
    (v : CVal) (hnow : 0 ≤ now) (httl : 0 < ttl) :
    (getWithExpiry noFaults (setWithExpiry noFaults st now k v ttl) now k).1
      = .ok (some v)
    ∧ (truthy v = true →
        ∀ (configured : Bool) (firebaseQuery : Except Unit CVal)
          (backendUrl : String) (backend : String → Except Unit FetchResponse)
          (backendPath : String) (expiry : Int),
          cachedQuery noFaults (setWithExpiry noFaults st now k v ttl) now k
              configured firebaseQuery backendUrl backend backendPath expiry
            = ⟨.ok (some v), setWithExpiry noFaults st now k v ttl, 0, []⟩) := by
  have hexp := pkvLookup_setWithExpiry_expiry st now k v ttl
  have hval := pkvLookup_setWithExpiry_value st now k v ttl
  have htr : truthy (.vnum (now + 1000 * ttl)) = true := by
    simp only [truthy, bne_iff_ne, ne_eq]
    omega
  have hgt : jsGT now (.vnum (now + 1000 * ttl)) = false := by
    simp only [jsGT, decide_eq_false_iff_not, not_lt]
    omega
  have hget : getWithExpiry noFaults (setWithExpiry noFaults st now k v ttl) now k
      = (.ok (some v), setWithExpiry noFaults st now k v ttl) := by
    rw [getWithExpiry_noFaults_eq, hexp]
    simp [htr, hgt, hval]
  refine ⟨by rw [hget], ?_⟩
  intro htv configured firebaseQuery backendUrl backend backendPath expiry
  simp [cachedQuery, hget, truthyOpt, htv]

/-- Witness for C1 at a concrete input. -/
theorem c1_fresh_write_read_hit_witness :
    (0 : Int) ≤ 5 ∧ (0 : Int) < 60 ∧
      (getWithExpiry noFaults
          (setWithExpiry noFaults ([] : Store) 5 "team_1234_v3" (.vobj []) 60)
          5 "team_1234_v3").1 = .ok (some (.vobj []))
    ∧ cachedQuery noFaults
          (setWithExpiry noFaults ([] : Store) 5 "team_1234_v3" (.vobj []) 60)
          5 "team_1234_v3" true (.error ()) "u" (fun _ => .error ()) "/p" 300
        = ⟨.ok (some (.vobj [])),
            setWithExpiry noFaults ([] : Store) 5 "team_1234_v3" (.vobj []) 60,
            0, []⟩ :=
  ⟨by decide, by decide,
    (c1_fresh_write_read_hit ([] : Store) 5 60 "team_1234_v3" (.vobj [])
      (by decide) (by decide)).1,
    (c1_fresh_write_read_hit ([] : Store) 5 60 "team_1234_v3" (.vobj [])
      (by decide) (by decide)).2 rfl true (.error ()) "u" (fun _ => .error ()) "/p" 300⟩

/-! ## C2–C4: the resolver's source-selection behaviour on a cache miss -/

theorem backendStep_counts (f : Faults) (st : Store) (now : Int) (k : String)
    (backendUrl : String) (backend : String → Except Unit FetchResponse)
    (backendPath : String) (expiry : Int) (pc : Nat) :
    (backendStep f st now k backendUrl backend backendPath expiry pc).fallbackPaths
        = [backendUrl ++ backendPath]
    ∧ (backendStep f st now k backendUrl backend backendPath expiry pc).primaryCalls
        = pc := by
  cases h : backend (backendUrl ++ backendPath) with
  | error e => simp [backendStep, h]
  | ok res =>
    by_cases hok : res.ok
    · simp [backendStep, h, hok]
    · simp [backendStep, h, hok]

theorem backendStep_success (f : Faults) (st : Store) (now : Int) (k : String)
    (backendUrl : String) (backend : String → Except Unit FetchResponse)
    (backendPath : String) (expiry : Int) (pc : Nat) (resp : FetchResponse)
    (hb : backend (backendUrl ++ backendPath) = .ok resp) (hok : resp.ok = true) :
    backendStep f st now k backendUrl backend backendPath expiry pc
      = ⟨.ok (some resp.body), setWithExpiry f st now k resp.body expiry, pc,
          [backendUrl ++ backendPath]⟩ := by
  simp [backendStep, hb, hok]

theorem backendStep_failure (f : Faults) (st : Store) (now : Int) (k : String)
    (backendUrl : String) (backend : String → Except Unit FetchResponse)
    (backendPath : String) (expiry : Int) (pc : Nat)
    (hb : backend (backendUrl ++ backendPath) = .error ()
      ∨ ∃ resp, backend (backendUrl ++ backendPath) = .ok resp ∧ resp.ok = false) :
    backendStep f st now k backendUrl backend backendPath expiry pc
      = ⟨.ok none, st, pc, [backendUrl ++ backendPath]⟩ := by
  rcases hb with hb | ⟨resp, hb, hok⟩
  · simp [backendStep, hb]
  · simp [backendStep, hb, hok]

/-- C2: on a cache miss with the primary adapter configured, if the primary
query resolves to a non-empty result (a non-empty array, or a single record —
a document object), `cachedQuery` writes it to the cache under `cacheKey`
with expiry record `now + 1000 * ttl`, returns it, and never invokes the
fallback fetch. -/
theorem c2_primary_success_caches_and_returns
    (st st1 : Store) (now : Int) (k : String) (c : Option CVal) (res : CVal)
    (backendUrl : String) (backend : String → Except Unit FetchResponse)
    (backendPath : String) (ttl : Int)
    (hread : getWithExpiry noFaults st now k = (.ok c, st1))
    (hmiss : truthyOpt c = false)
    (hres : (∃ xs, res = .varr xs ∧ xs ≠ []) ∨ ∃ fields, res = .vobj fields) :
    cachedQuery noFaults st now k true (.ok res) backendUrl backend backendPath ttl
      = ⟨.ok (some res), setWithExpiry noFaults st1 now k res ttl, 1, []⟩
    ∧ pkvLookup (setWithExpiry noFaults st1 now k res ttl) k = some res
    ∧ pkvLookup (setWithExpiry noFaults st1 now k res ttl) (k ++ "_expiry")
        = some (.vnum (now + 1000 * ttl)) := by
  have hcond : (truthy res
      && (if res.isArr then decide (0 < res.arrLen) else true)) = true := by
    rcases hres with ⟨xs, rfl, hxs⟩ | ⟨fields, rfl⟩
    · have : 0 < xs.length := List.length_pos.mpr hxs
      simp [truthy, CVal.isArr, CVal.arrLen, this]
    · simp [truthy, CVal.isArr]
  refine ⟨?_, pkvLookup_setWithExpiry_value _ _ _ _ _,
    pkvLookup_setWithExpiry_expiry _ _ _ _ _⟩
  simp [cachedQuery, hread, hmiss, hcond]
  intro h
  exfalso
  rcases (Bool.and_eq_true _ _).mp hcond with ⟨ht, hc2⟩
  rcases h ht with ⟨ha, hlen⟩
  rw [ha] at hc2
  simp at hc2
  omega

/-- Witness for C2 at a concrete input: the spec's scenario
`resolve("team_1234_v3", primaryOK, "/v3/site/teams/1234", 3600)`. -/
theorem c2_primary_success_caches_and_returns_witness :
    cachedQuery noFaults ([] : Store) 17 "team_1234_v3" true
        (.ok (.vobj [("team", .vnum 1234)])) "u" (fun _ => .error ())
        "/v3/site/teams/1234" 3600
      = ⟨.ok (some (.vobj [("team", .vnum 1234)])),
          setWithExpiry noFaults ([] : Store) 17 "team_1234_v3"
            (.vobj [("team", .vnum 1234)]) 3600, 1, []⟩
    ∧ pkvLookup (setWithExpiry noFaults ([] : Store) 17 "team_1234_v3"
          (.vobj [("team", .vnum 1234)]) 3600) "team_1234_v3"
        = some (.vobj [("team", .vnum 1234)])
    ∧ pkvLookup (setWithExpiry noFaults ([] : Store) 17 "team_1234_v3"
          (.vobj [("team", .vnum 1234)]) 3600) ("team_1234_v3" ++ "_expiry")
        = some (.vnum (17 + 1000 * 3600)) :=
  c2_primary_success_caches_and_returns ([] : Store) ([] : Store) 17
    "team_1234_v3" none (.vobj [("team", .vnum 1234)]) "u" (fun _ => .error ())
    "/v3/site/teams/1234" 3600 rfl rfl (Or.inr ⟨[("team", .vnum 1234)], rfl⟩)

/-- C3: on a cache miss, if the primary adapter is unconfigured, or the
primary query throws, or it returns an empty array, `cachedQuery` invokes the
fallback fetch exactly once against `BACKEND_URL ++ backendPath` (with zero
primary invocations in the unconfigured case), and on an ok HTTP status it
caches the decoded body under the key and returns it. -/
theorem c3_fallback_on_primary_failure
    (st st1 : Store) (now : Int) (k : String) (c : Option CVal)
    (configured : Bool) (firebaseQuery : Except Unit CVal)
    (backendUrl backendPath : String)
    (backend : String → Except Unit FetchResponse) (ttl : Int)
    (hread : getWithExpiry noFaults st now k = (.ok c, st1))
    (hmiss : truthyOpt c = false)
    (hsrc : configured = false ∨ firebaseQuery = .error ()
      ∨ firebaseQuery = .ok (.varr [])) :
    (cachedQuery noFaults st now k configured firebaseQuery backendUrl backend
        backendPath ttl).fallbackPaths = [backendUrl ++ backendPath]
    ∧ (configured = false →
        (cachedQuery noFaults st now k configured firebaseQuery backendUrl
          backend backendPath ttl).primaryCalls = 0)
    ∧ (∀ resp, backend (backendUrl ++ backendPath) = .ok resp → resp.ok = true →
        cachedQuery noFaults st now k configured firebaseQuery backendUrl
            backend backendPath ttl
          = ⟨.ok (some resp.body), setWithExpiry noFaults st1 now k resp.body ttl,
              (if configured then 1 else 0), [backendUrl ++ backendPath]⟩) := by
  have hstep : cachedQuery noFaults st now k configured firebaseQuery backendUrl
      backend backendPath ttl
      = backendStep noFaults st1 now k backendUrl backend backendPath ttl
          (if configured then 1 else 0) := by
    rcases hsrc with hcfg | hq | hq
    · simp [cachedQuery, hread, hmiss, hcfg]
    · cases hcfg : configured
      · simp [cachedQuery, hread, hmiss, hcfg, hq]
      · simp [cachedQuery, hread, hmiss, hcfg, hq]
    · cases hcfg : configured
      · simp [cachedQuery, hread, hmiss, hcfg, hq]
      · simp [cachedQuery, hread, hmiss, hcfg, hq, truthy, CVal.isArr, CVal.arrLen]
  refine ⟨?_, ?_, ?_⟩
  · rw [hstep]
    exact (backendStep_counts _ _ _ _ _ _ _ _ _).1
  · intro hcfg
    rw [hstep, hcfg]
    exact (backendStep_counts _ _ _ _ _ _ _ _ _).2
  · intro resp hb hok
    rw [hstep, backendStep_success _ _ _ _ _ _ _ _ _ resp hb hok]

/-- Witness for C3 at a concrete input: unconfigured primary, fallback
returns ok with body `{team: 1234}`. -/
theorem c3_fallback_on_primary_failure_witness :
    (cachedQuery noFaults ([] : Store) 17 "team_1234_v3" false (.error ()) "u"
        (fun _ => .ok ⟨true, .vobj [("team", .vnum 1234)]⟩)
        "/v3/site/teams/1234" 3600).fallbackPaths = ["u" ++ "/v3/site/teams/1234"]
    ∧ (cachedQuery noFaults ([] : Store) 17 "team_1234_v3" false (.error ()) "u"
        (fun _ => .ok ⟨true, .vobj [("team", .vnum 1234)]⟩)
        "/v3/site/teams/1234" 3600).primaryCalls = 0
    ∧ cachedQuery noFaults ([] : Store) 17 "team_1234_v3" false (.error ()) "u"
        (fun _ => .ok ⟨true, .vobj [("team", .vnum 1234)]⟩)
        "/v3/site/teams/1234" 3600
      = ⟨.ok (some (.vobj [("team", .vnum 1234)])),
          setWithExpiry noFaults ([] : Store) 17 "team_1234_v3"
            (.vobj [("team", .vnum 1234)]) 3600,
          (if false then 1 else 0), ["u" ++ "/v3/site/teams/1234"]⟩ := by
  have h := c3_fallback_on_primary_failure ([] : Store) ([] : Store) 17
    "team_1234_v3" none false (.error ()) "u" "/v3/site/teams/1234"
    (fun _ => .ok ⟨true, .vobj [("team", .vnum 1234)]⟩) 3600 rfl rfl (Or.inl rfl)
  exact ⟨h.1, h.2.1 rfl, h.2.2 ⟨true, .vobj [("team", .vnum 1234)]⟩ rfl rfl⟩

/-- C4: on a cache miss, if the primary source fails or is unavailable (the
adapter is unconfigured, the query throws, or its result fails the
non-emptiness test) and the fallback fetch also fails (throws, or a non-ok
HTTP status), `cachedQuery` returns `null` without raising, and performs no
cache write — and on a cold miss (no expiry record) the store is unchanged. -/
theorem c4_both_sources_fail_returns_absent
    (st st1 : Store) (now : Int) (k : String) (c : Option CVal)
    (configured : Bool) (firebaseQuery : Except Unit CVal)
    (backendUrl backendPath : String)
    (backend : String → Except Unit FetchResponse) (ttl : Int)
    (hread : getWithExpiry noFaults st now k = (.ok c, st1))
    (hmiss : truthyOpt c = false)
    (hprim : configured = false ∨ firebaseQuery = .error ()
      ∨ ∃ res, firebaseQuery = .ok res
          ∧ (truthy res && (if res.isArr then decide (0 < res.arrLen) else true))
              = false)
    (hfb : backend (backendUrl ++ backendPath) = .error ()
      ∨ ∃ resp, backend (backendUrl ++ backendPath) = .ok resp ∧ resp.ok = false) :
    cachedQuery noFaults st now k configured firebaseQuery backendUrl backend
        backendPath ttl
      = ⟨.ok none, st1, (if configured then 1 else 0), [backendUrl ++ backendPath]⟩
    ∧ (pkvLookup st (k ++ "_expiry") = none → st1 = st) := by
  constructor
  · have hstep : cachedQuery noFaults st now k configured firebaseQuery
        backendUrl backend backendPath ttl
        = backendStep noFaults st1 now k backendUrl backend backendPath ttl
            (if configured then 1 else 0) := by
      rcases hprim with hcfg | hq | ⟨res, hq, hres⟩
      · simp [cachedQuery, hread, hmiss, hcfg]
      · cases hcfg : configured
        · simp [cachedQuery, hread, hmiss, hcfg, hq]
        · simp [cachedQuery, hread, hmiss, hcfg, hq]
      · cases hcfg : configured
        · simp [cachedQuery, hread, hmiss, hcfg, hq]
        · simp [cachedQuery, hread, hmiss, hcfg, hq, hres]
          intro h1 h2
          exfalso
          rw [h1] at hres
          simp only [Bool.true_and] at hres
          cases hA : res.isArr with
          | false =>
            rw [hA] at hres
            simp at hres
          | true =>
            rw [hA] at hres
            simp at hres
            rcases h2 with h2 | h2
            · exact absurd h2 (by simp [hA])
            · omega
    rw [hstep, backendStep_failure _ _ _ _ _ _ _ _ _ hfb]
  · intro hcold
    have h2 := hread
    rw [getWithExpiry_noFaults_eq, hcold] at h2
    simp only [Prod.mk.injEq] at h2
    exact h2.2.symm

/-- Witness for C4 at a concrete input: the spec's scenario — primary throws,
fallback answers HTTP 500 — returns `null` and leaves the store empty. -/
theorem c4_both_sources_fail_returns_absent_witness :
    cachedQuery noFaults ([] : Store) 17 "team_1234_v3" true (.error ()) "u"
        (fun _ => .ok ⟨false, .vnull⟩) "/v3/site/teams/1234" 3600
      = ⟨.ok none, ([] : Store), (if true then 1 else 0),
          ["u" ++ "/v3/site/teams/1234"]⟩ :=
  (c4_both_sources_fail_returns_absent ([] : Store) ([] : Store) 17
    "team_1234_v3" none true (.error ()) "u" "/v3/site/teams/1234"
    (fun _ => .ok ⟨false, .vnull⟩) 3600 rfl rfl (Or.inr (Or.inl rfl))
    (Or.inr ⟨⟨false, .vnull⟩, rfl, rfl⟩)).1

/-! ## C5: which store failures are swallowed -/

/-- C5 counterexample: the claim that a store failure during a TTL-cache
*read* is swallowed is false — `getWithExpiry` has no `try`/`catch`, and
`cachedQuery` calls it outside its `try` blocks, so a rejection of the
underlying `get` of the expiry record propagates to the resolver's caller. -/
theorem c5_counterexample_read_failure_propagates :
    (cachedQuery
        { getFails := fun key => key == "team_1234_v3_expiry",
          setFails := fun _ => false, delFails := fun _ => false }
        ([] : Store) 0 "team_1234_v3" false (.error ()) "u"
        (fun _ => .error ()) "/v3/site/teams/1234" 300).result
      = .error () := rfl

/-- C5 amended: only *write* failures are swallowed at the TTL-cache
boundary.  For every fault behaviour of the persistent store (in particular,
`set` may throw on every key), if the initial cache-read phase itself does
not throw then `cachedQuery` never rejects; failures thrown during the read
phase (`get` of the expiry or value record, `del` during lazy eviction)
propagate to the caller, as the counterexample shows. -/
theorem c5_amended_write_failures_swallowed
    (f : Faults) (st : Store) (now : Int) (k : String) (c : Option CVal)
    (configured : Bool) (firebaseQuery : Except Unit CVal)
    (backendUrl backendPath : String)
    (backend : String → Except Unit FetchResponse) (ttl : Int)
    (hread : (getWithExpiry f st now k).1 = .ok c) :
    ∃ v, (cachedQuery f st now k configured firebaseQuery backendUrl backend
        backendPath ttl).result = .ok v := by
  rcases hg : getWithExpiry f st now k with ⟨r, st1⟩
  rw [hg] at hread
  simp only at hread
  subst hread
  have hback : ∀ (st' : Store) (pc : Nat), ∃ v,
      (backendStep f st' now k backendUrl backend backendPath ttl pc).result
        = .ok v := by
    intro st' pc
    cases hb : backend (backendUrl ++ backendPath) with
    | error e => exact ⟨none, by simp [backendStep, hb]⟩
    | ok resp =>
      by_cases hok : resp.ok
      · exact ⟨some resp.body, by simp [backendStep, hb, hok]⟩
      · exact ⟨none, by simp [backendStep, hb, hok]⟩
  by_cases hc : truthyOpt c
  · exact ⟨c, by simp [cachedQuery, hg, hc]⟩
  · cases hcfg : configured
    · rcases hback st1 0 with ⟨v, hv⟩
      refine ⟨v, ?_⟩
      simpa [cachedQuery, hg, hc, hcfg] using hv
    · cases hq : firebaseQuery with
      | error e =>
        rcases hback st1 1 with ⟨v, hv⟩
        refine ⟨v, ?_⟩
        simpa [cachedQuery, hg, hc, hcfg, hq] using hv
      | ok res =>
        by_cases hcond :
            (truthy res && (if res.isArr then decide (0 < res.arrLen) else true))
              = true
        · have hcond' : truthy res = true ∧ (res.isArr = false ∨ 0 < res.arrLen) := by
            rcases (Bool.and_eq_true _ _).mp hcond with ⟨ht, h2⟩
            refine ⟨ht, ?_⟩
            cases hA : res.isArr
            · exact Or.inl rfl
            · rw [hA] at h2
              simp at h2
              exact Or.inr h2
          refine ⟨some res, ?_⟩
          simp [cachedQuery, hg, hc, hcfg, hq]
          rw [if_pos hcond']
        · have hcond' : ¬(truthy res = true ∧ (res.isArr = false ∨ 0 < res.arrLen)) := by
            rintro ⟨ht, hor⟩
            apply hcond
            cases hA : res.isArr
            · simp [ht, hA]
            · rcases hor with h | h
              · exact absurd h (by simp [hA])
              · simp [ht, hA, h]
          rcases hback st1 1 with ⟨v, hv⟩
          refine ⟨v, ?_⟩
          simp [cachedQuery, hg, hc, hcfg, hq]
          rw [if_neg hcond']
          exact hv

/-- Witness for the amended C5: even when every `set` throws, a resolver run
whose read phase succeeds returns `.ok`. -/
theorem c5_amended_write_failures_swallowed_witness :
    ∃ v, (cachedQuery
        { getFails := fun _ => false, setFails := fun _ => true,
          delFails := fun _ => false }
        ([] : Store) 17 "team_1234_v3" true
        (.ok (.vobj [("team", .vnum 1234)])) "u" (fun _ => .error ())
        "/v3/site/teams/1234" 3600).result = .ok v :=
  c5_amended_write_failures_swallowed
    { getFails := fun _ => false, setFails := fun _ => true,
      delFails := fun _ => false }
    ([] : Store) 17 "team_1234_v3" none true
    (.ok (.vobj [("team", .vnum 1234)])) "u" "/v3/site/teams/1234"
    (fun _ => .error ()) 3600 rfl

/-! ## C6: expiry — a late read returns absent and evicts both records -/

/-- C6: for an entry written at time `t0 ≥ 0` with `ttl > 0`, a non-faulty
TTL-cache read at any time strictly after `t0 + ttl*1000` returns absent, and
afterwards both the value record `k` and the expiry record `k ++ "_expiry"`
are deleted from the store (lazy eviction). -/
theorem c6_expired_read_evicts (st : Store) (t0 ttl now : Int) (k : String)
    (v : CVal) (ht0 : 0 ≤ t0) (httl : 0 < ttl) (hlate : t0 + 1000 * ttl < now) :
    getWithExpiry noFaults (setWithExpiry noFaults st t0 k v ttl) now k
      = (.ok none,
          storeDel (storeDel (setWithExpiry noFaults st t0 k v ttl)
            (k ++ "_expiry")) k)
    ∧ pkvLookup (storeDel (storeDel (setWithExpiry noFaults st t0 k v ttl)
        (k ++ "_expiry")) k) k = none
    ∧ pkvLookup (storeDel (storeDel (setWithExpiry noFaults st t0 k v ttl)
        (k ++ "_expiry")) k) (k ++ "_expiry") = none := by
  have hexp := pkvLookup_setWithExpiry_expiry st t0 k v ttl
  have htr : truthy (.vnum (t0 + 1000 * ttl)) = true := by
    simp only [truthy, bne_iff_ne, ne_eq]
    omega
  have hgt : jsGT now (.vnum (t0 + 1000 * ttl)) = true := by
    simp only [jsGT, decide_eq_true_eq]
    omega
  refine ⟨?_, pkvLookup_storeDel_self _ _, ?_⟩
  · rw [getWithExpiry_noFaults_eq, hexp]
    simp [htr, hgt]
  · rw [pkvLookup_storeDel_ne _ _ _ (key_ne_expiryKey k)]
    exact pkvLookup_storeDel_self _ _

/-- Witness for C6 at a concrete input. -/
theorem c6_expired_read_evicts_witness :
    (0 : Int) ≤ 5 ∧ (0 : Int) < 60 ∧ (5 : Int) + 1000 * 60 < 70000 ∧
      getWithExpiry noFaults
          (setWithExpiry noFaults ([] : Store) 5 "event_e1_v3" (.varr []) 60)
          70000 "event_e1_v3"
        = (.ok none,
            storeDel (storeDel
              (setWithExpiry noFaults ([] : Store) 5 "event_e1_v3" (.varr []) 60)
              ("event_e1_v3" ++ "_expiry")) "event_e1_v3")
    ∧ pkvLookup (storeDel (storeDel
          (setWithExpiry noFaults ([] : Store) 5 "event_e1_v3" (.varr []) 60)
          ("event_e1_v3" ++ "_expiry")) "event_e1_v3") "event_e1_v3" = none
    ∧ pkvLookup (storeDel (storeDel
          (setWithExpiry noFaults ([] : Store) 5 "event_e1_v3" (.varr []) 60)
          ("event_e1_v3" ++ "_expiry")) "event_e1_v3") ("event_e1_v3" ++ "_expiry")
        = none :=
  ⟨by decide, by decide, by decide,
    (c6_expired_read_evicts ([] : Store) 5 60 70000 "event_e1_v3" (.varr [])
      (by decide) (by decide) (by decide)).1,
    (c6_expired_read_evicts ([] : Store) 5 60 70000 "event_e1_v3" (.varr [])
      (by decide) (by decide) (by decide)).2.1,
    (c6_expired_read_evicts ([] : Store) 5 60 70000 "event_e1_v3" (.varr [])
      (by decide) (by decide) (by decide)).2.2⟩

/-! ## C7: the composite team-season-matches query -/

theorem mem_fetchEventMatchesQ (mdb : List MatchRec) (failsM : String → Bool)
    (e : String) (m : MatchRec) :
    m ∈ fetchEventMatchesQ mdb failsM e ↔
      failsM e = false ∧ m.event = e ∧ m ∈ mdb := by
  unfold fetchEventMatchesQ
  by_cases hf : failsM e
  · simp [hf]
  · have hf' : failsM e = false := by simpa using hf
    simp [hf', sortByTime, List.mem_insertionSort, List.mem_filter]
    tauto

/-- C7: with the team-events fetch succeeding, `fetchTeamMatches` is sorted
globally ascending by match time, and contains exactly the matches of the
events the team participated in that season in which the team occupies one of
the four slot roles — where a failed per-event match fetch contributes no
matches for that event (and nothing else is lost). -/
theorem c7_fetchTeamMatches_characterisation (tdb : List TeamEventRec)
    (mdb : List MatchRec) (failsM : String → Bool) (teamNum year : Int) :
    (fetchTeamMatches tdb mdb false failsM teamNum year).Pairwise
        (fun a b => a.time ≤ b.time)
    ∧ ∀ m, m ∈ fetchTeamMatches tdb mdb false failsM teamNum year ↔
        (m ∈ mdb ∧ failsM m.event = false ∧ teamInMatch teamNum m = true ∧
          ∃ te ∈ tdb, te.team = teamNum ∧ te.year = year ∧ te.event = m.event) := by
  constructor
  · haveI : IsTotal MatchRec (fun a b => a.time ≤ b.time) :=
      ⟨fun a b => le_total a.time b.time⟩
    haveI : IsTrans MatchRec (fun a b => a.time ≤ b.time) :=
      ⟨fun _ _ _ h1 h2 => le_trans h1 h2⟩
    exact List.sorted_insertionSort _ _
  · intro m
    simp only [fetchTeamMatches, fetchTeamEventsQ, Bool.false_eq_true, if_false,
      sortByTime, List.mem_insertionSort, List.mem_flatMap, List.mem_filter,
      mem_fetchEventMatchesQ, Bool.and_eq_true, beq_iff_eq]
    constructor
    · rintro ⟨te, ⟨hte, hteam, hyear⟩, ⟨hfail, hev, hm⟩, hplay⟩
      exact ⟨hm, hev ▸ hfail, hplay, te, hte, hteam, hyear, hev.symm⟩
    · rintro ⟨hm, hfail, hplay, te, hte, hteam, hyear, hev⟩
      refine ⟨te, ⟨hte, hteam, hyear⟩, ⟨?_, hev.symm, hm⟩, hplay⟩
      rw [hev]
      exact hfail

/-- The spec's concrete scenario for the composite query: team 7 plays in
events `E1` (matches at times 10 and 30, team 7 in `red_1` of the one at 30)
and `E2` (one match at time 20, team 7 in `blue_2`); the result is the two
participated matches in ascending time order, the match at 10 excluded. -/
theorem c7_scenario :
    fetchTeamMatches
        [⟨7, 2025, "E1"⟩, ⟨7, 2025, "E2"⟩]
        [⟨"E1", 1, 2, 3, 4, 10⟩, ⟨"E1", 7, 2, 3, 4, 30⟩, ⟨"E2", 1, 2, 3, 7, 20⟩]
        false (fun _ => false) 7 2025
      = [⟨"E2", 1, 2, 3, 7, 20⟩, ⟨"E1", 7, 2, 3, 4, 30⟩] := by
  decide

/-! ## C9: the team-years cache key and TTL -/

/-- C9 counterexample: with no top-N limit supplied, the key produced by
`getYearTeamYears` is `team_years_<year>_all_<version>`, not the claimed
`team_years_<year>_<version>`. -/
theorem c9_counterexample_no_limit_key :
    getYearTeamYearsKey 2025 none = "team_years_2025_all_" ++ version
    ∧ getYearTeamYearsKey 2025 none ≠ "team_years_2025_" ++ version := by
  constructor
  · rfl
  · decide

/-- C9 amended: the team-years resource uses cache key
`team_years_<year>_<N>_<version>` when a nonzero top-N limit is supplied and
`team_years_<year>_all_<version>` when none (or a falsy `0`) is supplied; the
TTL is short (60 s) exactly when the requested year is the current season and
long (3600 s) otherwise. -/
theorem c9_amended_team_years_key_and_ttl (year n currentYear : Int)
    (hn : n ≠ 0) :
    getYearTeamYearsKey year (some n)
        = "team_years_" ++ toString year ++ "_" ++ toString n ++ "_" ++ version
    ∧ getYearTeamYearsKey year none
        = "team_years_" ++ toString year ++ "_all_" ++ version
    ∧ getYearTeamYearsKey year (some 0)
        = "team_years_" ++ toString year ++ "_all_" ++ version
    ∧ (year = currentYear → getYearTeamYearsTTL currentYear year = 60)
    ∧ (year ≠ currentYear → getYearTeamYearsTTL currentYear year = 3600) := by
  refine ⟨?_, rfl, rfl, ?_, ?_⟩
  · have hb : (n != 0) = true := by simpa using hn
    simp [getYearTeamYearsKey, teamYearsKey, hb]
  · intro h
    simp [getYearTeamYearsTTL, h]
  · intro h
    have hb : (year == currentYear) = false := by simpa using h
    simp [getYearTeamYearsTTL, hb]

/-- Witness for the amended C9 at a concrete input. -/
theorem c9_amended_team_years_key_and_ttl_witness :
    (7 : Int) ≠ 0 ∧
      (getYearTeamYearsKey 2025 (some 7)
          = "team_years_" ++ toString (2025 : Int) ++ "_" ++ toString (7 : Int)
              ++ "_" ++ version
      ∧ getYearTeamYearsKey 2025 none
          = "team_years_" ++ toString (2025 : Int) ++ "_all_" ++ version
      ∧ getYearTeamYearsKey 2025 (some 0)
          = "team_years_" ++ toString (2025 : Int) ++ "_all_" ++ version
      ∧ ((2025 : Int) = 2026 → getYearTeamYearsTTL 2026 2025 = 60)
      ∧ ((2025 : Int) ≠ 2026 → getYearTeamYearsTTL 2026 2025 = 3600)) :=
  ⟨by decide, c9_amended_team_years_key_and_ttl 2025 7 2026 (by decide)⟩

/-! ## C10: truthiness semantics of the hit and non-emptiness tests -/

/-- C10: the resolver's cache-hit test and primary non-emptiness test are
JavaScript truthiness checks.  With an unexpired *falsy* value stored under
`k`, the hit test fails and the sources are re-queried (the primary is
invoked); a falsy primary result is treated as empty and triggers the
fallback; a falsy fallback body delivered with an ok status is written to
the cache and returned — yet a subsequent resolve of the same key still
treats the cache as a miss and re-queries the primary. -/
theorem c10_truthiness_miss_behaviour (st : Store) (now : Int) (k : String)
    (e : Int) (v vp body : CVal) (backendUrl backendPath : String)
    (backend : String → Except Unit FetchResponse) (ttl : Int)
    (hexp : pkvLookup st (k ++ "_expiry") = some (.vnum e))
    (he : e ≠ 0) (hfresh : ¬ e < now)
    (hval : pkvLookup st k = some v) (hv : truthy v = false)
    (hvp : truthy vp = false)
    (hb : backend (backendUrl ++ backendPath) = .ok ⟨true, body⟩)
    (hbody : truthy body = false) (hnow0 : 0 ≤ now) (httl : 0 < ttl) :
    cachedQuery noFaults st now k true (.ok vp) backendUrl backend backendPath ttl
      = ⟨.ok (some body), setWithExpiry noFaults st now k body ttl, 1,
          [backendUrl ++ backendPath]⟩
    ∧ (cachedQuery noFaults (setWithExpiry noFaults st now k body ttl) now k
        true (.ok vp) backendUrl backend backendPath ttl).primaryCalls = 1 := by
  have htr : truthy (.vnum e) = true := by
    simp only [truthy, bne_iff_ne, ne_eq]
    exact he
  have hgt : jsGT now (.vnum e) = false := by
    simp only [jsGT, decide_eq_false_iff_not]
    exact hfresh
  have hget : getWithExpiry noFaults st now k = (.ok (some v), st) := by
    rw [getWithExpiry_noFaults_eq, hexp]
    simp [htr, hgt, hval]
  have hmiss : truthyOpt (some v) = false := by simp [truthyOpt, hv]
  constructor
  · have hstep : cachedQuery noFaults st now k true (.ok vp) backendUrl backend
        backendPath ttl
        = backendStep noFaults st now k backendUrl backend backendPath ttl 1 := by
      simp [cachedQuery, hget, hmiss, hvp]
    rw [hstep, backendStep_success _ _ _ _ _ _ _ _ _ ⟨true, body⟩ hb rfl]
  · have hexp2 := pkvLookup_setWithExpiry_expiry st now k body ttl
    have hval2 := pkvLookup_setWithExpiry_value st now k body ttl
    have htr2 : truthy (.vnum (now + 1000 * ttl)) = true := by
      simp only [truthy, bne_iff_ne, ne_eq]
      omega
    have hgt2 : jsGT now (.vnum (now + 1000 * ttl)) = false := by
      simp only [jsGT, decide_eq_false_iff_not, not_lt]
      omega
    have hget2 : getWithExpiry noFaults (setWithExpiry noFaults st now k body ttl)
        now k = (.ok (some body), setWithExpiry noFaults st now k body ttl) := by
      rw [getWithExpiry_noFaults_eq, hexp2]
      simp [htr2, hgt2, hval2]
    have hmiss2 : truthyOpt (some body) = false := by simp [truthyOpt, hbody]
    have hstep2 : cachedQuery noFaults (setWithExpiry noFaults st now k body ttl)
        now k true (.ok vp) backendUrl backend backendPath ttl
        = backendStep noFaults (setWithExpiry noFaults st now k body ttl) now k
            backendUrl backend backendPath ttl 1 := by
      simp [cachedQuery, hget2, hmiss2, hvp]
    rw [hstep2]
    exact (backendStep_counts _ _ _ _ _ _ _ _ _).2

/-- Witness for C10 at a concrete input: the stored falsy value is `0`, the
primary returns `""`, the fallback body is `null`. -/
theorem c10_truthiness_miss_behaviour_witness :
    cachedQuery noFaults
        [("team_1234_v3_expiry", .vnum 99999), ("team_1234_v3", .vnum 0)]
        17 "team_1234_v3" true (.ok (.vstr "")) "u"
        (fun _ => .ok ⟨true, .vnull⟩) "/v3/site/teams/1234" 3600
      = ⟨.ok (some .vnull),
          setWithExpiry noFaults
            [("team_1234_v3_expiry", .vnum 99999), ("team_1234_v3", .vnum 0)]
            17 "team_1234_v3" .vnull 3600, 1, ["u" ++ "/v3/site/teams/1234"]⟩
    ∧ (cachedQuery noFaults
        (setWithExpiry noFaults
          [("team_1234_v3_expiry", .vnum 99999), ("team_1234_v3", .vnum 0)]
          17 "team_1234_v3" .vnull 3600)
        17 "team_1234_v3" true (.ok (.vstr "")) "u"
        (fun _ => .ok ⟨true, .vnull⟩) "/v3/site/teams/1234" 3600).primaryCalls
      = 1 :=
  c10_truthiness_miss_behaviour
    [("team_1234_v3_expiry", .vnum 99999), ("team_1234_v3", .vnum 0)]
    17 "team_1234_v3" 99999 (.vnum 0) (.vstr "") .vnull "u"
    "/v3/site/teams/1234" (fun _ => .ok ⟨true, .vnull⟩) 3600
    rfl (by decide) (by decide) rfl rfl rfl rfl rfl (by decide) (by decide)

/-! ## C8: schema-version tags make cache keys disjoint -/

theorem last_underscore_aux (x : List Char) :
    ∀ (y u w : List Char), '_' ∉ x → '_' ∉ y →
      x ++ '_' :: u = y ++ '_' :: w → x = y ∧ u = w := by
  induction x with
  | nil =>
    intro y u w _ hy h
    cases y with
    | nil =>
      simp only [List.nil_append] at h
      injection h with h1 h2
      exact ⟨rfl, h2⟩
    | cons d ys =>
      simp only [List.nil_append, List.cons_append] at h
      injection h with h1 h2
      exact absurd (show ('_' : Char) ∈ d :: ys by
        rw [h1]
        exact List.mem_cons_self d ys) hy
  | cons c xs ih =>
    intro y u w hx hy h
    cases y with
    | nil =>
      simp only [List.nil_append, List.cons_append] at h
      injection h with h1 h2
      exact absurd (show ('_' : Char) ∈ c :: xs by
        rw [← h1]
        exact List.mem_cons_self c xs) hx
    | cons d ys =>
      simp only [List.cons_append] at h
      injection h with h1 h2
      have hx' : '_' ∉ xs := fun hm => hx (List.mem_cons_of_mem _ hm)
      have hy' : '_' ∉ ys := fun hm => hy (List.mem_cons_of_mem _ hm)
      have hih := ih ys u w hx' hy' h2
      exact ⟨by rw [h1, hih.1], hih.2⟩

/-- If two `…_<seg>` character lists agree and neither final segment contains
`'_'`, both the prefixes and the final segments agree. -/
theorem last_underscore_inj (l1 l2 a b : List Char)
    (ha : '_' ∉ a) (hb : '_' ∉ b)
    (h : l1 ++ '_' :: a = l2 ++ '_' :: b) : l1 = l2 ∧ a = b := by
  have hrev : a.reverse ++ '_' :: l1.reverse = b.reverse ++ '_' :: l2.reverse := by
    have h2 := congrArg List.reverse h
    simpa [List.reverse_append] using h2
  have haux := last_underscore_aux a.reverse b.reverse l1.reverse l2.reverse
    (by simpa using ha) (by simpa using hb) hrev
  constructor
  · have h3 := congrArg List.reverse haux.2
    simpa using h3
  · have h3 := congrArg List.reverse haux.1
    simpa using h3

/-- String version: a key of shape `p ++ "_" ++ v` with underscore-free `v`
determines both `p` and `v`. -/
theorem version_suffix_inj (s t a b : String)
    (ha : underscoreFree a) (hb : underscoreFree b)
    (h : s ++ "_" ++ a = t ++ "_" ++ b) : s = t ∧ a = b := by
  have hd : (s.data ++ ['_']) ++ a.data = (t.data ++ ['_']) ++ b.data :=
    congrArg String.data h
  have hd2 : s.data ++ '_' :: a.data = t.data ++ '_' :: b.data := by
    simpa [List.append_assoc] using hd
  have h3 := last_underscore_inj s.data t.data a.data b.data ha hb hd2
  exact ⟨String.ext h3.1, String.ext h3.2⟩

/-- Every resource cache key decomposes as `prefix ++ "_" ++ version`. -/
theorem isResourceKey_decomp (v k : String) (h : IsResourceKey v k) :
    ∃ p, k = p ++ "_" ++ v := by
  have hall : ∀ x : String, x ++ "_all_" ++ v = (x ++ "_all") ++ "_" ++ v := by
    intro x
    rw [String.append_assoc x "_all" "_"]
    rfl
  cases h with
  | teamsAll => exact ⟨"teams_all", rfl⟩
  | team n => exact ⟨"team_" ++ toString n, rfl⟩
  | teamYears year lim =>
    cases lim with
    | none =>
      exact ⟨("team_years_" ++ toString year) ++ "_all",
        hall ("team_years_" ++ toString year)⟩
    | some n =>
      by_cases hn : (n != 0) = true
      · have hk : teamYearsKey v year (some n)
            = "team_years_" ++ toString year ++ "_" ++ toString n ++ "_" ++ v := by
          simp [teamYearsKey, hn]
        exact ⟨"team_years_" ++ toString year ++ "_" ++ toString n, by rw [hk]⟩
      · have hb : (n != 0) = false := by simpa using hn
        have hk : teamYearsKey v year (some n)
            = "team_years_" ++ toString year ++ "_all_" ++ v := by
          simp [teamYearsKey, hb]
        exact ⟨("team_years_" ++ toString year) ++ "_all", by
          rw [hk]
          exact hall ("team_years_" ++ toString year)⟩
  | teamYear n y => exact ⟨"team_year_" ++ toString n ++ "_" ++ toString y, rfl⟩
  | teamAllYears n => exact ⟨"team_all_years_" ++ toString n, rfl⟩
  | events y => exact ⟨"events_" ++ toString y, rfl⟩
  | event ek => exact ⟨"event_" ++ ek, rfl⟩
  | eventMatches ek => exact ⟨"event_matches_" ++ ek, rfl⟩
  | teamMatches n y =>
    exact ⟨"team_matches_" ++ toString n ++ "_" ++ toString y, rfl⟩
  | eventRankings ek => exact ⟨"event_rankings_" ++ ek, rfl⟩

theorem resource_keys_disjoint (vA vB k1 k2 : String)
    (hA : underscoreFree vA) (hB : underscoreFree vB) (hne : vA ≠ vB)
    (h1 : IsResourceKey vA k1) (h2 : IsResourceKey vB k2) : k1 ≠ k2 := by
  obtain ⟨p1, rfl⟩ := isResourceKey_decomp vA k1 h1
  obtain ⟨p2, rfl⟩ := isResourceKey_decomp vB k2 h2
  intro he
  exact hne (version_suffix_inj p1 p2 vA vB hA hB he).2

/-- Appending `"_expiry"` is appending the segment `"expiry"`. -/
theorem append_expiry_split (x : String) : x ++ "_expiry" = x ++ "_" ++ "expiry" :=
  (String.append_assoc x "_" "expiry").symm

/-- The TTL-cache read outcome only depends on the store through the two
records of its own key. -/
theorem getWithExpiry_noFaults_fst_congr (st st' : Store) (now : Int)
    (k : String)
    (h1 : pkvLookup st (k ++ "_expiry") = pkvLookup st' (k ++ "_expiry"))
    (h2 : pkvLookup st k = pkvLookup st' k) :
    (getWithExpiry noFaults st now k).1 = (getWithExpiry noFaults st' now k).1 := by
  rw [getWithExpiry_noFaults_eq, getWithExpiry_noFaults_eq, h1, h2]
  cases pkvLookup st' (k ++ "_expiry") with
  | none => rfl
  | some ev =>
    by_cases ht : truthy ev
    · by_cases hgt : jsGT now ev
      · simp [ht, hgt]
      · simp [ht, hgt]
    · simp [ht]

/-- The caller-observable outcome of `cachedQuery` only depends on the store
through the two records of its own cache key. -/
theorem cachedQuery_observable_congr (st st' : Store) (now : Int) (k : String)
    (configured : Bool) (firebaseQuery : Except Unit CVal) (backendUrl : String)
    (backend : String → Except Unit FetchResponse) (backendPath : String)
    (expiry : Int)
    (h1 : pkvLookup st (k ++ "_expiry") = pkvLookup st' (k ++ "_expiry"))
    (h2 : pkvLookup st k = pkvLookup st' k) :
    resultCallsOf (cachedQuery noFaults st now k configured firebaseQuery
        backendUrl backend backendPath expiry)
      = resultCallsOf (cachedQuery noFaults st' now k configured firebaseQuery
          backendUrl backend backendPath expiry) := by
  have hfst := getWithExpiry_noFaults_fst_congr st st' now k h1 h2
  rcases hg : getWithExpiry noFaults st now k with ⟨r, s1⟩
  rcases hg' : getWithExpiry noFaults st' now k with ⟨r', s1'⟩
  rw [hg, hg'] at hfst
  simp only at hfst
  subst hfst
  have hback : ∀ (s s' : Store) (pc : Nat),
      resultCallsOf (backendStep noFaults s now k backendUrl backend
        backendPath expiry pc)
      = resultCallsOf (backendStep noFaults s' now k backendUrl backend
          backendPath expiry pc) := by
    intro s s' pc
    cases hb : backend (backendUrl ++ backendPath) with
    | error e => simp [backendStep, hb, resultCallsOf]
    | ok resp =>
      by_cases hok : resp.ok
      · simp [backendStep, hb, hok, resultCallsOf]
      · simp [backendStep, hb, hok, resultCallsOf]
  cases r with
  | error e => simp [cachedQuery, hg, hg', resultCallsOf]
  | ok cached =>
    by_cases hc : truthyOpt cached
    · simp [cachedQuery, hg, hg', hc, resultCallsOf]
    · cases hcfg : configured
      · simpa [cachedQuery, hg, hg', hc, hcfg] using hback s1 s1' 0
      · cases hq : firebaseQuery with
        | error e =>
          simpa [cachedQuery, hg, hg', hc, hcfg, hq] using hback s1 s1' 1
        | ok res =>
          by_cases hcond : (truthy res
              && (if res.isArr then decide (0 < res.arrLen) else true)) = true
          · have hcond' : truthy res = true ∧ (res.isArr = false ∨ 0 < res.arrLen) := by
              rcases (Bool.and_eq_true _ _).mp hcond with ⟨ht, hx⟩
              refine ⟨ht, ?_⟩
              cases hA : res.isArr
              · exact Or.inl rfl
              · rw [hA] at hx
                simp at hx
                exact Or.inr hx
            have hcondP : (truthy res = true ∧ (res.isArr = false ∨ 0 < res.arrLen))
                = True := eq_true hcond'
            simp [cachedQuery, hg, hg', hc, hcfg, hq, hcondP, resultCallsOf]
          · have hcond' : ¬(truthy res = true ∧ (res.isArr = false ∨ 0 < res.arrLen)) := by
              rintro ⟨ht, hor⟩
              apply hcond
              cases hA : res.isArr
              · simp [ht, hA]
              · rcases hor with h | h
                · exact absurd h (by simp [hA])
                · simp [ht, hA, h]
            have hcondP : (truthy res = true ∧ (res.isArr = false ∨ 0 < res.arrLen))
                = False := eq_false hcond'
            simpa [cachedQuery, hg, hg', hc, hcfg, hq, hcondP]
              using hback s1 s1' 1

/-- C8: every resource cache key carries the schema version as its final
`_`-separated segment; and for two distinct version strings that contain no
underscore (and are not the literal segment `"expiry"`), any key of the old
version differs from any key of the new version, and a TTL-cache entry
written under the old-version key is invisible to a resolve under the
new-version key — the resolver's observable outcome (returned value, primary
invocations, fallback fetches) is exactly as if the old write had never
happened, so it never returns a value written under the old version's key. -/
theorem c8_version_keys_disjoint (vA vB k1 k2 : String)
    (hA : underscoreFree vA) (hB : underscoreFree vB) (hne : vA ≠ vB)
    (hEA : vA ≠ "expiry") (hEB : vB ≠ "expiry")
    (h1 : IsResourceKey vA k1) (h2 : IsResourceKey vB k2) :
    (∃ p, k1 = p ++ "_" ++ vA) ∧ k1 ≠ k2
    ∧ ∀ (st : Store) (t0 : Int) (oldVal : CVal) (ttl now : Int)
        (configured : Bool) (firebaseQuery : Except Unit CVal)
        (backendUrl : String) (backend : String → Except Unit FetchResponse)
        (backendPath : String) (expiry : Int),
        resultCallsOf (cachedQuery noFaults
            (setWithExpiry noFaults st t0 k1 oldVal ttl) now k2 configured
            firebaseQuery backendUrl backend backendPath expiry)
          = resultCallsOf (cachedQuery noFaults st now k2 configured
              firebaseQuery backendUrl backend backendPath expiry) := by
  obtain ⟨p1, hk1⟩ := isResourceKey_decomp vA k1 h1
  obtain ⟨p2, hk2⟩ := isResourceKey_decomp vB k2 h2
  have hexpfree : underscoreFree "expiry" := by decide
  have hne_a : k1 ≠ k2 := resource_keys_disjoint vA vB k1 k2 hA hB hne h1 h2
  have hne_b : k1 ≠ k2 ++ "_expiry" := by
    intro he
    rw [hk1, hk2, append_expiry_split] at he
    exact hEA (version_suffix_inj p1 (p2 ++ "_" ++ vB) vA "expiry" hA
      hexpfree he).2
  have hne_c : k1 ++ "_expiry" ≠ k2 := by
    intro he
    rw [hk1, hk2, append_expiry_split] at he
    exact hEB ((version_suffix_inj (p1 ++ "_" ++ vA) p2 "expiry" vB hexpfree
      hB he).2).symm
  have hne_d : k1 ++ "_expiry" ≠ k2 ++ "_expiry" := by
    intro he
    rw [append_expiry_split, append_expiry_split] at he
    exact hne_a (version_suffix_inj k1 k2 "expiry" "expiry" hexpfree
      hexpfree he).1
  refine ⟨⟨p1, hk1⟩, hne_a, ?_⟩
  intro st t0 oldVal ttl now configured firebaseQuery backendUrl backend
    backendPath expiry
  exact cachedQuery_observable_congr _ _ now k2 configured firebaseQuery
    backendUrl backend backendPath expiry
    (pkvLookup_setWithExpiry_ne st t0 k1 oldVal ttl (k2 ++ "_expiry") hne_b hne_d)
    (pkvLookup_setWithExpiry_ne st t0 k1 oldVal ttl k2 hne_a hne_c)

/-- Witness for C8 at a concrete input: versions `"v3"` and `"v4"`, the
single-team key for team 1234 under each. -/
theorem c8_version_keys_disjoint_witness :
    (∃ p, teamKey "v3" 1234 = p ++ "_" ++ "v3")
    ∧ teamKey "v3" 1234 ≠ teamKey "v4" 1234
    ∧ resultCallsOf (cachedQuery noFaults
          (setWithExpiry noFaults ([] : Store) 0 (teamKey "v3" 1234)
            (.vnum 1) 60) 5 (teamKey "v4" 1234) false (.error ()) "u"
          (fun _ => .error ()) "/p" 60)
        = resultCallsOf (cachedQuery noFaults ([] : Store) 5 (teamKey "v4" 1234)
            false (.error ()) "u" (fun _ => .error ()) "/p" 60) := by
  have h := c8_version_keys_disjoint "v3" "v4" (teamKey "v3" 1234)
    (teamKey "v4" 1234) (by decide) (by decide) (by decide) (by decide)
    (by decide) (.team 1234) (.team 1234)
  exact ⟨h.1, h.2.1,
    h.2.2 ([] : Store) 0 (.vnum 1) 60 5 false (.error ()) "u"
      (fun _ => .error ()) "/p" 60⟩

/-- C8 counterexample: for version strings that may contain underscores the
claimed disjointness fails as stated — an event key is free-form, so the key
of event `"e_x"` under version `"v3"` coincides with the key of event `"e"`
under the changed version `"x_v3"`, and a resolve under the new version
returns the value cached under the old version's key. -/
theorem c8_counterexample_underscored_version :
    eventKeyOf "v3" "e_x" = eventKeyOf "x_v3" "e"
    ∧ ("v3" : String) ≠ "x_v3"
    ∧ (cachedQuery noFaults
        (setWithExpiry noFaults ([] : Store) 5 (eventKeyOf "v3" "e_x")
          (.vnum 42) 60) 5 (eventKeyOf "x_v3" "e") false (.error ()) "u"
        (fun _ => .error ()) "/p" 60).result
      = .ok (some (.vnum 42)) :=
  ⟨by decide, by decide, rfl⟩

end FTCinsight
